import Mathlib

/-!
Verification of the Sprout diff parser.

A shallow embedding of `src/utils/diff_parser.py` (class `DiffParser`).
Python strings are modelled as `List Char` internally; the record fields and
the two public operations (`parse_diff`, `get_summary`) use `String`.

The two regular expressions used by the source,
`a/(.*?)\s+b/` and `\+\+\+ b/(.*)`, are embedded directly as recursive
scanning functions with Python `re.search` semantics: leftmost starting
position wins, `.*?` is lazy and does not match a newline, `\s+` matches one
or more whitespace characters (newlines included), `.*` is greedy up to the
end of the line.  `re.split(r'\ndiff --git', s)` is a literal split, since
its pattern contains no regex metacharacters.
-/

/-- Python's whitespace class (`\s`, and the default `str.strip` set),
restricted to its ASCII members. -/
def isPySpace (c : Char) : Bool :=
  c == ' ' || c == '\t' || c == '\n' || c == '\r' || c == '\x0b' || c == '\x0c'

/-- Python `str.strip()`: drop whitespace from both ends. -/
def pyStrip (l : List Char) : List Char :=
  ((l.dropWhile isPySpace).reverse.dropWhile isPySpace).reverse

/-- Python `str.startswith(c)` for a one-character argument. -/
def startsWithChar (c : Char) : List Char → Bool
  | [] => false
  | x :: _ => x == c

/-- Python `str.split(sep)` for a one-character separator (used with `'\n'`).
`splitOnChar c [] = [[]]`, matching `"".split('\n') == ['']`. -/
def splitOnChar (c : Char) : List Char → List (List Char)
  | [] => [[]]
  | x :: xs =>
    match splitOnChar c xs with
    | [] => [[]]
    | h :: t => if x == c then [] :: h :: t else (x :: h) :: t

/-- The section separator of `re.split(r'\ndiff --git', diff_text)`:
the pattern is a literal, so the split is a plain substring split. -/
def sepTok : List Char := '\n' :: "diff --git".toList

/-- Fuel-indexed worker for `splitOnTok`; the fuel only forces structural
termination and is always instantiated with the length of the list, which
the scan never exhausts for a nonempty token. -/
def splitOnTokFuel (tok : List Char) : Nat → List Char → List (List Char)
  | _, [] => [[]]
  | 0, s => [s]
  | fuel + 1, x :: xs =>
    if tok.isPrefixOf (x :: xs) then
      [] :: splitOnTokFuel tok fuel ((x :: xs).drop tok.length)
    else
      match splitOnTokFuel tok fuel xs with
      | [] => [[]]
      | h :: t => (x :: h) :: t

/-- Split a list at every non-overlapping leftmost occurrence of the token
`tok`, removing the separators, like `re.split` on a literal pattern. -/
def splitOnTok (tok : List Char) (s : List Char) : List (List Char) :=
  splitOnTokFuel tok s.length s

/-- After at least one `\s` character has been consumed, does the rest of the
text continue a match of `\s+b/`?  Either the literal `b/` comes next, or one
more whitespace character is consumed (`b` is not whitespace, so the scan is
deterministic). -/
def wsThenBCont : List Char → Bool
  | [] => false
  | 'b' :: '/' :: _ => true
  | c :: rest => if isPySpace c then wsThenBCont rest else false

/-- Does `\s+b/` match a prefix of the text? -/
def wsThenB : List Char → Bool
  | [] => false
  | c :: rest => if isPySpace c then wsThenBCont rest else false

/-- Lazy capture of `(.*?)\s+b/` at a fixed position: return the shortest
newline-free prefix after which `\s+b/` matches, if any. -/
def lazyCapture (l : List Char) : Option (List Char) :=
  if wsThenB l then some []
  else
    match l with
    | [] => none
    | c :: rest =>
      if c == '\n' then none
      else (lazyCapture rest).map (c :: ·)

/-- Attempt the pattern `a/(.*?)\s+b/` anchored at the head of the list. -/
def matchAAt (l : List Char) : Option (List Char) :=
  match l with
  | c1 :: c2 :: rest => if c1 == 'a' && c2 == '/' then lazyCapture rest else none
  | _ => none

/-- `re.search(r'a/(.*?)\s+b/', l)`: try every starting position from the
left, returning the first successful capture group. -/
def searchASlash (l : List Char) : Option (List Char) :=
  match l with
  | [] => none
  | c :: rest =>
    match matchAAt (c :: rest) with
    | some cap => some cap
    | none => searchASlash rest

/-- The literal part `+++ b/` of the second pattern. -/
def plusBTok : List Char := "+++ b/".toList

/-- Attempt the pattern `\+\+\+ b/(.*)` anchored at the head of the list; the
greedy `.*` captures up to the end of the line. -/
def matchPlusBAt (l : List Char) : Option (List Char) :=
  if plusBTok.isPrefixOf l then some ((l.drop 6).takeWhile (fun c => c != '\n'))
  else none

/-- `re.search(r'\+\+\+ b/(.*)', l)`: first starting position from the left
where the pattern matches. -/
def searchPlusB (l : List Char) : Option (List Char) :=
  match l with
  | [] => none
  | c :: rest =>
    match matchPlusBAt (c :: rest) with
    | some cap => some cap
    | none => searchPlusB rest

/-- `DiffParser._extract_file_path`: the `a/<path> b/` capture if the first
regex matches anywhere in the section (not stripped), else the stripped
`+++ b/<path>` capture, else the empty string. -/
def extract_file_path (file_diff : List Char) : List Char :=
  match searchASlash file_diff with
  | some cap => cap
  | none =>
    match searchPlusB file_diff with
    | some cap => pyStrip cap
    | none => []

/-- The `'+++'` file-marker prefix. -/
def plusMarker : List Char := ['+', '+', '+']

/-- The `'---'` file-marker prefix. -/
def minusMarker : List Char := ['-', '-', '-']

/-- The `'@@'` hunk-header prefix. -/
def atMarker : List Char := ['@', '@']

/-- The body of the line-classification loop of `DiffParser._extract_changes`,
acting on one line, given the classification of the lines after it.
`line.tail` is Python's `line[1:]`. -/
def classifyStep (line : List Char) (r : List (List Char) × List (List Char)) :
    List (List Char) × List (List Char) :=
  if plusMarker.isPrefixOf line || minusMarker.isPrefixOf line then r
  else if atMarker.isPrefixOf line then r
  else if startsWithChar '+' line then (pyStrip line.tail :: r.1, r.2)
  else if startsWithChar '-' line then (r.1, pyStrip line.tail :: r.2)
  else r

/-- Classify a list of lines into (additions, deletions), in order. -/
def classifyLines (lines : List (List Char)) : List (List Char) × List (List Char) :=
  lines.foldr classifyStep ([], [])

/-- `DiffParser._extract_changes`: split the section on `'\n'` and classify
every physical line. -/
def extract_changes (file_diff : List Char) : List (List Char) × List (List Char) :=
  classifyLines (splitOnChar '\n' file_diff)

/-- One parsed file record, as produced by `DiffParser.parse_diff` (the
Python dict with keys `file_path`, `additions`, `deletions`,
`addition_count`, `deletion_count`, `change_summary`). -/
structure FileChange where
  file_path : String
  additions : List String
  deletions : List String
  addition_count : Nat
  deletion_count : Nat
  change_summary : String
deriving DecidableEq, Repr

/-- The record appended by `DiffParser.parse_diff` for one surviving section
(source lines 65–72). -/
def recordOf (file_diff : List Char) : FileChange :=
  { file_path := String.mk (extract_file_path file_diff)
    additions := (extract_changes file_diff).1.map String.mk
    deletions := (extract_changes file_diff).2.map String.mk
    addition_count := (extract_changes file_diff).1.length
    deletion_count := (extract_changes file_diff).2.length
    change_summary :=
      "+" ++ Nat.repr (extract_changes file_diff).1.length ++ ", -" ++
        Nat.repr (extract_changes file_diff).2.length }

/-- The body of the per-section loop of `DiffParser.parse_diff`: skip the
section if it strips to empty or its file path extracts to empty, otherwise
emit the record. -/
def parseSection (file_diff : List Char) : Option FileChange :=
  if (pyStrip file_diff).isEmpty then none
  else if (extract_file_path file_diff).isEmpty then none
  else some (recordOf file_diff)

/-- `DiffParser.parse_diff`: return `[]` for empty or whitespace-only input
(`not diff_text or not diff_text.strip()` collapses to "strips to empty"),
otherwise split on `\ndiff --git` and emit one record per section that
survives the two skip conditions, in input order. -/
def parse_diff (diff_text : String) : List FileChange :=
  if (pyStrip diff_text.toList).isEmpty then []
  else (splitOnTok sepTok diff_text.toList).filterMap parseSection

/-- `DiffParser.get_summary`. -/
def get_summary (diff_text : String) : String :=
  let parsed := parse_diff diff_text
  if parsed.isEmpty then "No changes detected"
  else
    let total_additions := (parsed.map (fun f => f.addition_count)).sum
    let total_deletions := (parsed.map (fun f => f.deletion_count)).sum
    Nat.repr parsed.length ++ " file(s) changed: " ++
      Nat.repr total_additions ++ " addition(s), " ++
      Nat.repr total_deletions ++ " deletion(s)"

/-- Classification of a single line as an addition, exactly as the
specification words it: file markers `+++`/`---` and hunk headers `@@` are
ignored, then a remaining line beginning with `+` is recorded as the line
with the leading `+` stripped and whitespace-trimmed. -/
def additionOf (line : List Char) : Option (List Char) :=
  if plusMarker.isPrefixOf line || minusMarker.isPrefixOf line ||
      atMarker.isPrefixOf line then none
  else if startsWithChar '+' line then some (pyStrip line.tail)
  else none

/-- Classification of a single line as a deletion, exactly as the
specification words it. -/
def deletionOf (line : List Char) : Option (List Char) :=
  if plusMarker.isPrefixOf line || minusMarker.isPrefixOf line ||
      atMarker.isPrefixOf line then none
  else if startsWithChar '+' line then none
  else if startsWithChar '-' line then some (pyStrip line.tail)
  else none

/-- The path-extraction procedure exactly as the claim words it: first the
`a/<path>` whitespace `b/` pattern, then, failing that, a LINE BEGINNING
with `+++ b/` (the code, by contrast, accepts `+++ b/` anywhere in a line). -/
def extractPathClaim (sec : List Char) : List Char :=
  match searchASlash sec with
  | some cap => cap
  | none =>
    match (splitOnChar '\n' sec).find? (fun l => plusBTok.isPrefixOf l) with
    | some l => pyStrip (l.drop 6)
    | none => []

/-! Helper lemmas -/

lemma pyStrip_eq_nil_iff (l : List Char) : pyStrip l = [] ↔ l.all isPySpace = true := by
  unfold pyStrip
  rw [List.reverse_eq_nil_iff, List.dropWhile_eq_nil_iff, List.all_eq_true]
  constructor
  · intro h x hx
    rcases List.mem_append.1
        (by rw [List.takeWhile_append_dropWhile (p := isPySpace)]; exact hx) with h1 | h2
    · exact List.mem_takeWhile_imp h1
    · exact h x (List.mem_reverse.2 h2)
  · intro h x hx
    exact h x ((List.dropWhile_sublist _).mem (List.mem_reverse.1 hx))

lemma splitOnTokFuel_all_ws {l : List Char} (h : l.all isPySpace = true) (fuel : Nat) :
    splitOnTokFuel sepTok fuel l = [l] := by
  induction fuel generalizing l with
  | zero => cases l <;> rfl
  | succ fuel ih =>
    cases l with
    | nil => rfl
    | cons x xs =>
      rw [List.all_cons, Bool.and_eq_true] at h
      have hpre : sepTok.isPrefixOf (x :: xs) = false := by
        cases xs with
        | nil => simp [sepTok, List.isPrefixOf]
        | cons y ys =>
          have hy : isPySpace y = true := by
            rcases h with ⟨-, h2⟩
            rw [List.all_cons, Bool.and_eq_true] at h2
            exact h2.1
          have hd : (('d' : Char) == y) = false := by
            rcases Bool.eq_false_or_eq_true ('d' == y) with h' | h'
            swap
            · exact h'
            exfalso
            have : ('d' : Char) = y := by simpa using h'
            rw [← this] at hy
            simp [isPySpace] at hy
          simp [sepTok, List.isPrefixOf, hd]
      rw [splitOnTokFuel, hpre]
      simp only [Bool.false_eq_true, if_false]
      rw [ih h.2]

lemma splitOnTok_all_ws {l : List Char} (h : l.all isPySpace = true) :
    splitOnTok sepTok l = [l] :=
  splitOnTokFuel_all_ws h _

lemma parse_diff_eq_filterMap (s : String) :
    parse_diff s = (splitOnTok sepTok s.toList).filterMap parseSection := by
  unfold parse_diff
  split_ifs with h
  · have hall : s.toList.all isPySpace = true :=
      (pyStrip_eq_nil_iff _).1 (List.isEmpty_iff.1 h)
    rw [splitOnTok_all_ws hall]
    have h0 : pyStrip s.data = [] := List.isEmpty_iff.1 h
    simp [parseSection, h0]
  · rfl

lemma mem_parse_diff {s : String} {fc : FileChange} :
    fc ∈ parse_diff s ↔ ∃ sec ∈ splitOnTok sepTok s.toList, parseSection sec = some fc := by
  rw [parse_diff_eq_filterMap, List.mem_filterMap]

lemma parseSection_eq_some {sec : List Char} {fc : FileChange}
    (h : parseSection sec = some fc) :
    fc = recordOf sec ∧ pyStrip sec ≠ [] ∧ extract_file_path sec ≠ [] := by
  unfold parseSection at h
  split_ifs at h with h1 h2
  refine ⟨(Option.some.inj h).symm, ?_, ?_⟩
  · simpa [List.isEmpty_iff] using h1
  · simpa [List.isEmpty_iff] using h2

lemma parseSection_eq_some_of {sec : List Char}
    (h1 : pyStrip sec ≠ []) (h2 : extract_file_path sec ≠ []) :
    parseSection sec = some (recordOf sec) := by
  unfold parseSection
  rw [if_neg, if_neg] <;> simpa [List.isEmpty_iff]

lemma mem_parse_of_section {s : String} {sec : List Char}
    (hmem : sec ∈ splitOnTok sepTok s.toList) (h1 : pyStrip sec ≠ [])
    (h2 : extract_file_path sec ≠ []) : recordOf sec ∈ parse_diff s :=
  mem_parse_diff.2 ⟨sec, hmem, parseSection_eq_some_of h1 h2⟩

lemma matchAAt_of_not_a {c : Char} {rest : List Char} (h : (c == 'a') = false) :
    matchAAt (c :: rest) = none := by
  cases rest with
  | nil => rfl
  | cons c2 r => simp [matchAAt, h]

lemma searchASlash_all_ws {l : List Char} (h : l.all isPySpace = true) :
    searchASlash l = none := by
  induction l with
  | nil => rfl
  | cons c rest ih =>
    rw [List.all_cons, Bool.and_eq_true] at h
    have hca : (c == 'a') = false := by
      rcases Bool.eq_false_or_eq_true (c == 'a') with h' | h'
      swap
      · exact h'
      exfalso
      have : c = 'a' := by simpa using h'
      rw [this] at h
      simp [isPySpace] at h
    rw [searchASlash, matchAAt_of_not_a hca]
    exact ih h.2

lemma matchPlusBAt_of_not_plus {c : Char} {rest : List Char}
    (h : (('+' : Char) == c) = false) : matchPlusBAt (c :: rest) = none := by
  simp [matchPlusBAt, plusBTok, List.isPrefixOf, h]

lemma searchPlusB_all_ws {l : List Char} (h : l.all isPySpace = true) :
    searchPlusB l = none := by
  induction l with
  | nil => rfl
  | cons c rest ih =>
    rw [List.all_cons, Bool.and_eq_true] at h
    have hcp : (('+' : Char) == c) = false := by
      rcases Bool.eq_false_or_eq_true ('+' == c) with h' | h'
      swap
      · exact h'
      exfalso
      have : ('+' : Char) = c := by simpa using h'
      rw [← this] at h
      simp [isPySpace] at h
    rw [searchPlusB, matchPlusBAt_of_not_plus hcp]
    exact ih h.2

lemma extract_file_path_all_ws {l : List Char} (h : l.all isPySpace = true) :
    extract_file_path l = [] := by
  unfold extract_file_path
  rw [searchASlash_all_ws h, searchPlusB_all_ws h]

lemma pyStrip_ne_nil_of_path {sec : List Char} (h : extract_file_path sec ≠ []) :
    pyStrip sec ≠ [] := by
  intro hs
  exact h (extract_file_path_all_ws ((pyStrip_eq_nil_iff _).1 hs))

lemma classifyLines_eq (L : List (List Char)) :
    classifyLines L = (L.filterMap additionOf, L.filterMap deletionOf) := by
  induction L with
  | nil => rfl
  | cons l L ih =>
    unfold classifyLines at ih ⊢
    rw [List.foldr_cons, ih]
    simp only [classifyStep, additionOf, deletionOf, List.filterMap_cons]
    split_ifs with h1 h2 h3 h4 h5 h6 h7 <;> simp_all

/-! Claim theorems -/

/-- C1: `parse` is a total function over strings — in this embedding every
operation is a total Lean function — and diff text not following the
unified-diff convention (no section yields a file path) produces zero parsed
records rather than an error. -/
theorem parse_diff_total_nonconforming (s : String)
    (h : ∀ sec ∈ splitOnTok sepTok s.toList, extract_file_path sec = []) :
    parse_diff s = [] := by
  rw [parse_diff_eq_filterMap, List.filterMap_eq_nil_iff]
  intro sec hsec
  simp [parseSection, h sec hsec]

/-- C2: within each section every physical line is classified in priority
order — `+++`/`---` file markers ignored, `@@` hunk headers ignored, then a
`+` line is an addition (leading `+` stripped, whitespace-trimmed), a `-`
line a deletion, and everything else ignored; in particular `+++ b/a.py` is
never an addition and `--- a/a.py` never a deletion. -/
theorem extract_changes_line_classification :
    (∀ d : List Char,
        (extract_changes d).1 = (splitOnChar '\n' d).filterMap additionOf ∧
        (extract_changes d).2 = (splitOnChar '\n' d).filterMap deletionOf) ∧
    extract_changes ("+++ b/a.py".toList) = ([], []) ∧
    extract_changes ("--- a/a.py".toList) = ([], []) := by
  refine ⟨fun d => ?_, by decide, by decide⟩
  rw [extract_changes, classifyLines_eq]
  exact ⟨rfl, rfl⟩

/-- C3, counterexample: the claim requires the fallback pattern to be a LINE
BEGINNING with `+++ b/`, but the code accepts the substring anywhere: on
`"zz+++ b/f.py\n+hello"` (a single section) the claim's extraction yields the
empty path — so the claim says no record exists — yet `parse` emits a
record for `f.py`. -/
theorem extract_path_line_anchored_cex :
    splitOnTok sepTok ("zz+++ b/f.py\n+hello".toList) =
      [("zz+++ b/f.py\n+hello".toList)] ∧
    extractPathClaim ("zz+++ b/f.py\n+hello".toList) = [] ∧
    parse_diff "zz+++ b/f.py\n+hello" =
      [⟨"f.py", ["hello"], [], 1, 0, "+1, -0"⟩] := by decide

/-- C3, amended: the path is extracted by first trying the `a/<path>`
whitespace `b/` pattern and otherwise the first occurrence of `+++ b/`
anywhere in the section (everything after `b/` to end of line, trimmed), and
a record exists in the output if and only if this extraction yields a
non-empty path. -/
theorem extract_path_first_match_iff_record (s : String) (sec : List Char)
    (hmem : sec ∈ splitOnTok sepTok s.toList) (hne : pyStrip sec ≠ []) :
    (parseSection sec = some (recordOf sec) ↔ extract_file_path sec ≠ []) ∧
    (recordOf sec).file_path = String.mk (extract_file_path sec) ∧
    (extract_file_path sec ≠ [] → recordOf sec ∈ parse_diff s) ∧
    (extract_file_path sec = [] → parseSection sec = none) := by
  refine ⟨⟨fun h => (parseSection_eq_some h).2.2, fun h => parseSection_eq_some_of hne h⟩,
    rfl, fun h => mem_parse_of_section hmem hne h, fun h => ?_⟩
  simp [parseSection, h]

/-- C4: every record's counts equal the lengths of its sequences. -/
theorem record_counts_eq_lengths (s : String) (fc : FileChange)
    (h : fc ∈ parse_diff s) :
    fc.addition_count = fc.additions.length ∧
    fc.deletion_count = fc.deletions.length := by
  obtain ⟨sec, -, hsec⟩ := mem_parse_diff.1 h
  obtain ⟨rfl, -, -⟩ := parseSection_eq_some hsec
  simp [recordOf]

/-- C5: every record's `change_summary` is exactly
`+{addition_count}, -{deletion_count}`. -/
theorem record_change_summary_format (s : String) (fc : FileChange)
    (h : fc ∈ parse_diff s) :
    fc.change_summary =
      "+" ++ Nat.repr fc.addition_count ++ ", -" ++ Nat.repr fc.deletion_count := by
  obtain ⟨sec, -, hsec⟩ := mem_parse_diff.1 h
  obtain ⟨rfl, -, -⟩ := parseSection_eq_some hsec
  rfl

/-- C6: `get_summary` returns the literal `No changes detected` exactly when
`parse_diff` is empty, and otherwise the literal shape
`{N} file(s) changed: {A} addition(s), {D} deletion(s)` with `N`, `A`, `D`
computed from `parse_diff`'s records. -/
theorem get_summary_of_parse (s : String) :
    (parse_diff s = [] → get_summary s = "No changes detected") ∧
    (parse_diff s ≠ [] →
      get_summary s =
        Nat.repr (parse_diff s).length ++ " file(s) changed: " ++
          Nat.repr ((parse_diff s).map (fun f => f.addition_count)).sum ++
          " addition(s), " ++
          Nat.repr ((parse_diff s).map (fun f => f.deletion_count)).sum ++
          " deletion(s)") := by
  constructor
  · intro h
    simp [get_summary, h]
  · intro h
    simp [get_summary, List.isEmpty_iff, h]

/-- C7: the empty string and every whitespace-only string parse to the empty
sequence, and summarize to `No changes detected`; this is a valid result,
not an error. -/
theorem parse_whitespace_only_input (s : String)
    (h : s.toList.all isPySpace = true) :
    parse_diff s = [] ∧ get_summary s = "No changes detected" := by
  have h0 : (pyStrip s.toList).isEmpty = true :=
    List.isEmpty_iff.2 ((pyStrip_eq_nil_iff _).2 h)
  have hp : parse_diff s = [] := by
    unfold parse_diff
    rw [if_pos h0]
  exact ⟨hp, by simp [get_summary, hp]⟩

/-- C8: a section with a recognized path but zero `+`/`-` body lines yields
a record with two empty sequences, both counts zero and summary `+0, -0`,
and the record is present in the result. -/
theorem path_only_section_zero_counts (s : String) (sec : List Char)
    (hmem : sec ∈ splitOnTok sepTok s.toList)
    (hfp : extract_file_path sec ≠ []) (hch : extract_changes sec = ([], [])) :
    recordOf sec ∈ parse_diff s ∧
    recordOf sec = ⟨String.mk (extract_file_path sec), [], [], 0, 0, "+0, -0"⟩ := by
  have h1 := pyStrip_ne_nil_of_path hfp
  refine ⟨mem_parse_of_section hmem h1 hfp, ?_⟩
  unfold recordOf
  rw [hch]
  rfl

/-- C9: the input is split at each literal `\ndiff --git`, the leading text
is still processed, and records appear in section order: two concatenated
file sections yield their two records in input order. -/
theorem concatenated_sections_in_order (s : String) (l1 l2 : List Char)
    (fc1 fc2 : FileChange) (hs : s.toList = l1 ++ sepTok ++ l2)
    (h1 : parseSection l1 = some fc1) (h2 : parseSection l2 = some fc2)
    (hsplit : splitOnTok sepTok (l1 ++ sepTok ++ l2) = [l1, l2]) :
    parse_diff s = [fc1, fc2] := by
  rw [parse_diff_eq_filterMap, hs, hsplit]
  simp [h1, h2]

/-- C10: whenever the `a/<path>` whitespace `b/` pattern matches somewhere in
a section — e.g. a rename header `diff --git a/old.py b/new.py` — the emitted
`file_path` is the captured a-side (old) path. -/
theorem rename_header_uses_a_side_path (s : String) (sec cap : List Char)
    (hmem : sec ∈ splitOnTok sepTok s.toList)
    (hsearch : searchASlash sec = some cap) (hcap : cap ≠ []) :
    recordOf sec ∈ parse_diff s ∧ (recordOf sec).file_path = String.mk cap := by
  have hfp : extract_file_path sec = cap := by
    unfold extract_file_path
    rw [hsearch]
  have hfp' : extract_file_path sec ≠ [] := by
    rw [hfp]
    exact hcap
  exact ⟨mem_parse_of_section hmem (pyStrip_ne_nil_of_path hfp') hfp',
    by simp [recordOf, hfp]⟩

/-! Witnesses -/

/-- Witness for C1: text with no recognizable diff markers parses to zero
records. -/
theorem parse_diff_total_nonconforming_w :
    parse_diff "hello world\nplain text" = [] :=
  parse_diff_total_nonconforming "hello world\nplain text" (by decide)

/-- Witness for C3 (amended): a concrete one-section diff. -/
theorem extract_path_first_match_iff_record_w :
    (parseSection ("diff --git a/m.py b/m.py\n+x".toList) =
        some (recordOf ("diff --git a/m.py b/m.py\n+x".toList)) ↔
      extract_file_path ("diff --git a/m.py b/m.py\n+x".toList) ≠ []) ∧
    (recordOf ("diff --git a/m.py b/m.py\n+x".toList)).file_path =
      String.mk (extract_file_path ("diff --git a/m.py b/m.py\n+x".toList)) ∧
    (extract_file_path ("diff --git a/m.py b/m.py\n+x".toList) ≠ [] →
      recordOf ("diff --git a/m.py b/m.py\n+x".toList) ∈
        parse_diff "diff --git a/m.py b/m.py\n+x") ∧
    (extract_file_path ("diff --git a/m.py b/m.py\n+x".toList) = [] →
      parseSection ("diff --git a/m.py b/m.py\n+x".toList) = none) :=
  extract_path_first_match_iff_record "diff --git a/m.py b/m.py\n+x"
    ("diff --git a/m.py b/m.py\n+x".toList) (by decide) (by decide)

/-- Witness for C4 at a concrete one-file diff. -/
theorem record_counts_eq_lengths_w :
    (⟨"m", ["x"], [], 1, 0, "+1, -0"⟩ : FileChange).addition_count =
        (⟨"m", ["x"], [], 1, 0, "+1, -0"⟩ : FileChange).additions.length ∧
      (⟨"m", ["x"], [], 1, 0, "+1, -0"⟩ : FileChange).deletion_count =
        (⟨"m", ["x"], [], 1, 0, "+1, -0"⟩ : FileChange).deletions.length :=
  record_counts_eq_lengths "diff --git a/m b/m\n+x"
    ⟨"m", ["x"], [], 1, 0, "+1, -0"⟩ (by decide)

/-- Witness for C5 at a concrete one-file diff. -/
theorem record_change_summary_format_w :
    (⟨"n", ["u", "v"], ["w"], 2, 1, "+2, -1"⟩ : FileChange).change_summary =
      "+" ++ Nat.repr (⟨"n", ["u", "v"], ["w"], 2, 1, "+2, -1"⟩ : FileChange).addition_count ++
        ", -" ++ Nat.repr (⟨"n", ["u", "v"], ["w"], 2, 1, "+2, -1"⟩ : FileChange).deletion_count :=
  record_change_summary_format "diff --git a/n b/n\n+u\n+v\n-w"
    ⟨"n", ["u", "v"], ["w"], 2, 1, "+2, -1"⟩ (by decide)

/-- Witness for C6: both branches of the summary at concrete inputs. -/
theorem get_summary_of_parse_w :
    get_summary "" = "No changes detected" ∧
    get_summary "diff --git a/m b/m\n+x" =
      "1 file(s) changed: 1 addition(s), 0 deletion(s)" := by
  constructor
  · exact (get_summary_of_parse "").1 (by decide)
  · rw [(get_summary_of_parse "diff --git a/m b/m\n+x").2 (by decide)]
    decide

/-- Witness for C7: the empty string and the whitespace-only string
`"   \n\t"` both yield the empty result and the no-changes summary. -/
theorem parse_whitespace_only_input_w :
    (parse_diff "" = [] ∧ get_summary "" = "No changes detected") ∧
    (parse_diff "   \n\t" = [] ∧ get_summary "   \n\t" = "No changes detected") :=
  ⟨parse_whitespace_only_input "" (by decide),
    parse_whitespace_only_input "   \n\t" (by decide)⟩

/-- Witness for C8: a binary-file section with a path and no `+`/`-` lines. -/
theorem path_only_section_zero_counts_w :
    recordOf ("diff --git a/i.png b/i.png\nBinary files a/i.png and b/i.png differ".toList) ∈
      parse_diff "diff --git a/i.png b/i.png\nBinary files a/i.png and b/i.png differ" ∧
    recordOf ("diff --git a/i.png b/i.png\nBinary files a/i.png and b/i.png differ".toList) =
      ⟨String.mk (extract_file_path
          ("diff --git a/i.png b/i.png\nBinary files a/i.png and b/i.png differ".toList)),
        [], [], 0, 0, "+0, -0"⟩ :=
  path_only_section_zero_counts
    "diff --git a/i.png b/i.png\nBinary files a/i.png and b/i.png differ"
    ("diff --git a/i.png b/i.png\nBinary files a/i.png and b/i.png differ".toList)
    (by decide) (by decide) (by decide)

/-- Witness for C9: two concatenated sections give two records in order. -/
theorem concatenated_sections_in_order_w :
    parse_diff "diff --git a/p.py b/p.py\n+x\ndiff --git a/q.py b/q.py\n-y" =
      [⟨"p.py", ["x"], [], 1, 0, "+1, -0"⟩, ⟨"q.py", [], ["y"], 0, 1, "+0, -1"⟩] :=
  concatenated_sections_in_order
    "diff --git a/p.py b/p.py\n+x\ndiff --git a/q.py b/q.py\n-y"
    ("diff --git a/p.py b/p.py\n+x".toList) (" a/q.py b/q.py\n-y".toList)
    ⟨"p.py", ["x"], [], 1, 0, "+1, -0"⟩ ⟨"q.py", [], ["y"], 0, 1, "+0, -1"⟩
    (by decide) (by decide) (by decide) (by decide)

/-- Witness for C10: a rename header emits the a-side (old) path. -/
theorem rename_header_uses_a_side_path_w :
    recordOf ("diff --git a/old.py b/new.py\n--- a/old.py\n+++ b/new.py\n+x".toList) ∈
      parse_diff "diff --git a/old.py b/new.py\n--- a/old.py\n+++ b/new.py\n+x" ∧
    (recordOf ("diff --git a/old.py b/new.py\n--- a/old.py\n+++ b/new.py\n+x".toList)).file_path =
      String.mk ("old.py".toList) :=
  rename_header_uses_a_side_path
    "diff --git a/old.py b/new.py\n--- a/old.py\n+++ b/new.py\n+x"
    ("diff --git a/old.py b/new.py\n--- a/old.py\n+++ b/new.py\n+x".toList)
    ("old.py".toList) (by decide) (by decide) (by decide)
